import Mathlib

/-!
Verification of the dynamic-value conversion layer of the
`terraform-provider-monad` repository: the typed-to-generic encoder
(`tfValueToAny` and friends) and the generic-to-typed decoder
(`anyToAttrValue`, `AnyToDynamic`), shallowly embedded from the Go source.

Modelling conventions:
* `attr.Value` trees of the terraform-plugin-framework are modelled by
  `AttrValue`; each framework value is null, unknown, or known (`ValState`).
* Go `any` trees (the generic JSON-like values the encoder produces and the
  decoder consumes) are modelled by `Any`.  A Go nil map and a Go empty map
  behave identically at every use site in the source (`AnyToDynamic` collapses
  both, and `anyToAttrValue` turns both into an empty object), so both are
  modelled as an empty association list; likewise nil and empty slices.
* Go maps are modelled as association lists iterated in list order; Go's map
  iteration order is unspecified, so this is one deterministic refinement.
* `int64` is modelled by `Int`, Go `float64` and `big.Float` payloads by `Rat`.
* Errors (`error` results built with `fmt.Errorf`, including `%w` wrapping)
  are modelled by the structured type `ConvErr`.
-/

namespace TfConv

/-- State of a terraform-plugin-framework value: null, unknown, or known. -/
inductive ValState (α : Type) : Type
  | null : ValState α
  | unknown : ValState α
  | known (val : α) : ValState α
  deriving DecidableEq

/-- The terraform-plugin-framework attribute types (`attr.Type`) that the
conversion layer can meet: `types.StringType`, `types.BoolType`,
`types.Int64Type`, `types.Float64Type`, `types.NumberType`,
`types.ListType`, `types.SetType`, `types.MapType`, `types.ObjectType`,
`types.TupleType`, `types.DynamicType`. -/
inductive AttrType : Type
  | string : AttrType
  | bool : AttrType
  | int64 : AttrType
  | float64 : AttrType
  | number : AttrType
  | list (elemType : AttrType) : AttrType
  | set (elemType : AttrType) : AttrType
  | map (elemType : AttrType) : AttrType
  | object (attrTypes : List (String × AttrType)) : AttrType
  | tuple (elemTypes : List AttrType) : AttrType
  | dynamic : AttrType

/-- Boolean structural equality on attribute types, mirroring the
framework's `attr.Type.Equal`. -/
def AttrType.beq : AttrType → AttrType → Bool
  | .string, .string => true
  | .bool, .bool => true
  | .int64, .int64 => true
  | .float64, .float64 => true
  | .number, .number => true
  | .dynamic, .dynamic => true
  | .list a, .list b => AttrType.beq a b
  | .set a, .set b => AttrType.beq a b
  | .map a, .map b => AttrType.beq a b
  | .object ts, .object us => go ts us
  | .tuple ts, .tuple us => goL ts us
  | _, _ => false
where
  go : List (String × AttrType) → List (String × AttrType) → Bool
    | [], [] => true
    | (k, t) :: ts, (l, u) :: us => k == l && AttrType.beq t u && go ts us
    | _, _ => false
  goL : List AttrType → List AttrType → Bool
    | [], [] => true
    | t :: ts, u :: us => AttrType.beq t u && goL ts us
    | _, _ => false

mutual

theorem AttrType.beq_iff : ∀ a b : AttrType, AttrType.beq a b = true ↔ a = b
  | .string, b => by cases b <;> simp [AttrType.beq]
  | .bool, b => by cases b <;> simp [AttrType.beq]
  | .int64, b => by cases b <;> simp [AttrType.beq]
  | .float64, b => by cases b <;> simp [AttrType.beq]
  | .number, b => by cases b <;> simp [AttrType.beq]
  | .dynamic, b => by cases b <;> simp [AttrType.beq]
  | .list a, b => by
      cases b <;> simp [AttrType.beq]
      exact AttrType.beq_iff a _
  | .set a, b => by
      cases b <;> simp [AttrType.beq]
      exact AttrType.beq_iff a _
  | .map a, b => by
      cases b <;> simp [AttrType.beq]
      exact AttrType.beq_iff a _
  | .object ts, b => by
      cases b <;> simp [AttrType.beq]
      exact AttrType.beq_iff_go ts _
  | .tuple ts, b => by
      cases b <;> simp [AttrType.beq]
      exact AttrType.beq_iff_goL ts _

theorem AttrType.beq_iff_go :
    ∀ ts us : List (String × AttrType), AttrType.beq.go ts us = true ↔ ts = us
  | [], [] => by simp [AttrType.beq.go]
  | [], _ :: _ => by simp [AttrType.beq.go]
  | _ :: _, [] => by simp [AttrType.beq.go]
  | (k, t) :: ts, (l, u) :: us => by
      simp [AttrType.beq.go, AttrType.beq_iff t u, AttrType.beq_iff_go ts us,
        Prod.ext_iff, and_assoc]

theorem AttrType.beq_iff_goL :
    ∀ ts us : List AttrType, AttrType.beq.goL ts us = true ↔ ts = us
  | [], [] => by simp [AttrType.beq.goL]
  | [], _ :: _ => by simp [AttrType.beq.goL]
  | _ :: _, [] => by simp [AttrType.beq.goL]
  | t :: ts, u :: us => by
      simp [AttrType.beq.goL, AttrType.beq_iff t u, AttrType.beq_iff_goL ts us]

end

instance : DecidableEq AttrType := fun a b => decidable_of_iff _ (AttrType.beq_iff a b)

/-- The terraform-plugin-framework attribute values (`attr.Value`) that the
conversion layer dispatches on: `types.String`, `types.Bool`, `types.Int64`,
`types.Float64`, `types.Number`, `types.List`, `types.Set`, `types.Map`,
`types.Object`, `types.Tuple`, `types.Dynamic`.  Containers carry their
declared element/field types the way framework values do. -/
inductive AttrValue : Type
  | str (s : ValState String) : AttrValue
  | bool (b : ValState Bool) : AttrValue
  | int64 (n : ValState Int) : AttrValue
  | float64 (x : ValState Rat) : AttrValue
  | number (x : ValState Rat) : AttrValue
  | list (elemType : AttrType) (elems : ValState (List AttrValue)) : AttrValue
  | set (elemType : AttrType) (elems : ValState (List AttrValue)) : AttrValue
  | map (elemType : AttrType) (elems : ValState (List (String × AttrValue))) : AttrValue
  | object (attrTypes : List (String × AttrType))
      (attrs : ValState (List (String × AttrValue))) : AttrValue
  | tuple (elemTypes : List AttrType) (elems : ValState (List AttrValue)) : AttrValue
  | dynamic (underlying : ValState AttrValue) : AttrValue

/-- Generic Go values (`any`) as produced by JSON deserialization and by the
encoder: nil, string, bool, int64, float64, `[]any`, `map[string]any`. -/
inductive Any : Type
  | nil : Any
  | str (s : String) : Any
  | bool (b : Bool) : Any
  | int64 (n : Int) : Any
  | float64 (x : Rat) : Any
  | slice (elems : List Any) : Any
  | map (entries : List (String × Any)) : Any

/-- `value.Type(ctx)` of a framework value (`basetypes.DynamicValue.Type`
is the dynamic pseudo-type). -/
def AttrValue.typeOf : AttrValue → AttrType
  | .str _ => .string
  | .bool _ => .bool
  | .int64 _ => .int64
  | .float64 _ => .float64
  | .number _ => .number
  | .list t _ => .list t
  | .set t _ => .set t
  | .map t _ => .map t
  | .object ts _ => .object ts
  | .tuple ts _ => .tuple ts
  | .dynamic _ => .dynamic

/-- The Go `%T` name of the concrete framework value, as printed by the
source's error messages. -/
def AttrValue.goTypeName : AttrValue → String
  | .str _ => "basetypes.StringValue"
  | .bool _ => "basetypes.BoolValue"
  | .int64 _ => "basetypes.Int64Value"
  | .float64 _ => "basetypes.Float64Value"
  | .number _ => "basetypes.NumberValue"
  | .list _ _ => "basetypes.ListValue"
  | .set _ _ => "basetypes.SetValue"
  | .map _ _ => "basetypes.MapValue"
  | .object _ _ => "basetypes.ObjectValue"
  | .tuple _ _ => "basetypes.TupleValue"
  | .dynamic _ => "basetypes.DynamicValue"

/-- `value.IsNull()` of a framework value. -/
def AttrValue.isNull : AttrValue → Bool
  | .str .null => true
  | .bool .null => true
  | .int64 .null => true
  | .float64 .null => true
  | .number .null => true
  | .list _ .null => true
  | .set _ .null => true
  | .map _ .null => true
  | .object _ .null => true
  | .tuple _ .null => true
  | .dynamic .null => true
  | _ => false

/-- `value.IsUnknown()` of a framework value. -/
def AttrValue.isUnknown : AttrValue → Bool
  | .str .unknown => true
  | .bool .unknown => true
  | .int64 .unknown => true
  | .float64 .unknown => true
  | .number .unknown => true
  | .list _ .unknown => true
  | .set _ .unknown => true
  | .map _ .unknown => true
  | .object _ .unknown => true
  | .tuple _ .unknown => true
  | .dynamic .unknown => true
  | _ => false

/-- Structured model of the `error` values produced by the conversion layer
(`fmt.Errorf` messages, with `%w` wrapping modelled as a constructor holding
the cause). -/
inductive ConvErr : Type
  /-- "cannot convert unknown value to any" (`tfValueToAny`). -/
  | unresolvedValue : ConvErr
  /-- "dynamic value is not an object or map, got %T" (`tfDynamicToMapAny`). -/
  | notObjectOrMap (goType : String) : ConvErr
  /-- "unsupported terraform type: %T" (`tfValueToAny` default case). -/
  | unsupportedTfType (goType : String) : ConvErr
  /-- "error converting attribute %q: %w" (`tfObjectToMapAny`). -/
  | attrField (key : String) (cause : ConvErr) : ConvErr
  /-- "error converting map element %q: %w" (`tfMapToMapAny`). -/
  | mapElem (key : String) (cause : ConvErr) : ConvErr
  /-- "error converting list element at index %d: %w" (`tfListToSliceAny`). -/
  | listElem (index : Nat) (cause : ConvErr) : ConvErr
  /-- "error converting set element: %w" (`tfSetToSliceAny`). -/
  | setElem (cause : ConvErr) : ConvErr
  /-- "error converting slice element at index %d: %w" (`anyToAttrValue`). -/
  | sliceElem (index : Nat) (cause : ConvErr) : ConvErr
  /-- "error converting map value for key %q: %w" (`anyToAttrValue`). -/
  | mapValue (key : String) (cause : ConvErr) : ConvErr
  /-- "error creating list value: %s" (diagnostics of `types.ListValue`). -/
  | invalidListElems : ConvErr
  /-- "error creating object value: %s" (diagnostics of `types.ObjectValue`). -/
  | invalidObjectAttrs : ConvErr
  /-- "error converting map to attr.Value: %w" (`AnyToDynamic`). -/
  | dynFromMap (cause : ConvErr) : ConvErr
  deriving DecidableEq

/-- Accuracy report of `(*big.Float).Float64`, mirroring `big.Accuracy`. -/
inductive BigAccuracy : Type
  | below : BigAccuracy
  | exact : BigAccuracy
  | above : BigAccuracy
  deriving DecidableEq

/-- Round a rational to the nearest integer, ties to even. -/
def roundHalfEven (q : Rat) : Int :=
  let f := ⌊q⌋
  let r := q - f
  if r < 1 / 2 then f
  else if 1 / 2 < r then f + 1
  else if f % 2 = 0 then f else f + 1

/-- Modelled from the math/big standard library (a dependency, not part of
this repository): `(*big.Float).Float64` returns the IEEE-754 double nearest
to the big float (53-bit significand, round to nearest, ties to even)
together with an accuracy report.  Overflow to infinity and subnormal
rounding are not modelled; inputs are assumed in the normal double range. -/
def bigFloatFloat64 (q : Rat) : Rat × BigAccuracy :=
  let r :=
    if q = 0 then (0 : Rat)
    else
      let a := |q|
      let ulp : Rat := (2 : Rat) ^ (Int.log 2 a - 52)
      (if q < 0 then (-1 : Rat) else 1) * roundHalfEven (a / ulp) * ulp
  (r, if r = q then .exact else if r < q then .below else .above)

/-- Modelled from the terraform-plugin-framework library (a dependency, not
part of this repository): `types.ListValue` validates that every element's
`Type` equals the declared element type and otherwise reports an
"Invalid List Element Type" diagnostic. -/
def listValue (elementType : AttrType) (elements : List AttrValue) :
    Except ConvErr AttrValue :=
  if elements.all (fun e => e.typeOf == elementType) then
    .ok (.list elementType (.known elements))
  else
    .error .invalidListElems

/-- Modelled from the terraform-plugin-framework library (a dependency, not
part of this repository): `types.ObjectValue` validates that the attribute
map carries exactly the declared attribute keys and that every attribute
value's `Type` equals its declared type.  Go's maps are modelled as
association lists compared in order. -/
def objectValue (attributeTypes : List (String × AttrType))
    (attributes : List (String × AttrValue)) : Except ConvErr AttrValue :=
  if attributes.map (fun p => (p.1, p.2.typeOf)) = attributeTypes then
    .ok (.object attributeTypes (.known attributes))
  else
    .error .invalidObjectAttrs

mutual

/-- `tfValueToAny` (src/unnamed/part_006, lines 87-120): convert a framework
value to a generic Go value.  Null values become nil, unknown values are an
error, scalars map to generic scalars, `types.Number` is truncated to a
float64 discarding the accuracy, containers recurse, and every other
framework value (notably `types.Tuple`) falls into the default
"unsupported terraform type" case. -/
def tfValueToAny (value : AttrValue) : Except ConvErr Any :=
  if value.isNull then .ok .nil
  else if value.isUnknown then .error .unresolvedValue
  else
    match value with
    | .str (.known s) => .ok (.str s)
    | .bool (.known b) => .ok (.bool b)
    | .int64 (.known n) => .ok (.int64 n)
    | .float64 (.known x) => .ok (.float64 x)
    | .number (.known x) => .ok (.float64 (bigFloatFloat64 x).1)
    | .list _ elems => (tfListToSliceAny elems).map .slice
    | .set _ elems => (tfSetToSliceAny elems).map .slice
    | .map _ elems => (tfMapToMapAny elems).map .map
    | .object _ attrs => (tfObjectToMapAny attrs).map .map
    | .dynamic st => (tfDynamicToMapAny st).map .map
    | v => .error (.unsupportedTfType v.goTypeName)

/-- `tfDynamicToMapAny` (src/unnamed/part_006, lines 33-47): a null or
unknown dynamic yields a nil map with no error; otherwise the underlying
value must be an object or a map. -/
def tfDynamicToMapAny (dyn : ValState AttrValue) :
    Except ConvErr (List (String × Any)) :=
  match dyn with
  | .null => .ok []
  | .unknown => .ok []
  | .known underlying =>
    match underlying with
    | .object _ attrs => tfObjectToMapAny attrs
    | .map _ elems => tfMapToMapAny elems
    | v => .error (.notObjectOrMap v.goTypeName)

/-- `tfObjectToMapAny` (src/unnamed/part_006, lines 49-66). -/
def tfObjectToMapAny (obj : ValState (List (String × AttrValue))) :
    Except ConvErr (List (String × Any)) :=
  match obj with
  | .null => .ok []
  | .unknown => .ok []
  | .known attrs => encodeObjectAttrs attrs

/-- The attribute loop of `tfObjectToMapAny`. -/
def encodeObjectAttrs :
    List (String × AttrValue) → Except ConvErr (List (String × Any))
  | [] => .ok []
  | (key, attrValue) :: rest =>
    match tfValueToAny attrValue with
    | .error e => .error (.attrField key e)
    | .ok converted =>
      match encodeObjectAttrs rest with
      | .error e => .error e
      | .ok result => .ok ((key, converted) :: result)

/-- `tfMapToMapAny` (src/unnamed/part_006, lines 68-85). -/
def tfMapToMapAny (mapVal : ValState (List (String × AttrValue))) :
    Except ConvErr (List (String × Any)) :=
  match mapVal with
  | .null => .ok []
  | .unknown => .ok []
  | .known elements => encodeMapElems elements

/-- The element loop of `tfMapToMapAny`. -/
def encodeMapElems :
    List (String × AttrValue) → Except ConvErr (List (String × Any))
  | [] => .ok []
  | (key, element) :: rest =>
    match tfValueToAny element with
    | .error e => .error (.mapElem key e)
    | .ok converted =>
      match encodeMapElems rest with
      | .error e => .error e
      | .ok result => .ok ((key, converted) :: result)

/-- `tfListToSliceAny` (src/unnamed/part_006, lines 122-139). -/
def tfListToSliceAny (list : ValState (List AttrValue)) :
    Except ConvErr (List Any) :=
  match list with
  | .null => .ok []
  | .unknown => .ok []
  | .known elements => encodeListElems 0 elements

/-- The element loop of `tfListToSliceAny`, carrying the index used in
error messages. -/
def encodeListElems (i : Nat) : List AttrValue → Except ConvErr (List Any)
  | [] => .ok []
  | element :: rest =>
    match tfValueToAny element with
    | .error e => .error (.listElem i e)
    | .ok converted =>
      match encodeListElems (i + 1) rest with
      | .error e => .error e
      | .ok result => .ok (converted :: result)

/-- `tfSetToSliceAny` (src/unnamed/part_006, lines 141-160). -/
def tfSetToSliceAny (setVal : ValState (List AttrValue)) :
    Except ConvErr (List Any) :=
  match setVal with
  | .null => .ok []
  | .unknown => .ok []
  | .known elements => encodeSetElems elements

/-- The element loop of `tfSetToSliceAny`. -/
def encodeSetElems : List AttrValue → Except ConvErr (List Any)
  | [] => .ok []
  | element :: rest =>
    match tfValueToAny element with
    | .error e => .error (.setElem e)
    | .ok converted =>
      match encodeSetElems rest with
      | .error e => .error e
      | .ok result => .ok (converted :: result)

end

/-- `TfDynamicToMapAny` (src/unnamed/part_006, lines 29-31): the exported
encoder entry point. -/
def TfDynamicToMapAny (dyn : ValState AttrValue) :
    Except ConvErr (List (String × Any)) :=
  tfDynamicToMapAny dyn

mutual

/-- `anyToAttrValue` (src/unnamed/part_006, lines 163-247): convert a generic
Go value to a framework value and its type.  Go nil becomes a null String;
scalars map to their framework scalars (the `int`/`int32`/`int64` and
`float32`/`float64` source cases, as well as the reflection fallback for
integer, unsigned, float, string and bool kinds, all collapse to the
`Any.int64`/`Any.float64` representations); a slice decodes every element,
takes the first element's type (String when empty) as the list element type
and builds a `types.ListValue`; a map decodes every value and builds a
`types.ObjectValue` keyed by the individually inferred types. -/
def anyToAttrValue (v : Any) : Except ConvErr (AttrValue × AttrType) :=
  match v with
  | .nil => .ok (.str .null, .string)
  | .str s => .ok (.str (.known s), .string)
  | .bool b => .ok (.bool (.known b), .bool)
  | .int64 n => .ok (.int64 (.known n), .int64)
  | .float64 x => .ok (.float64 (.known x), .float64)
  | .slice elems =>
    match decodeSliceElems 0 elems with
    | .error e => .error e
    | .ok converted =>
      let elementType :=
        match converted.head? with
        | none => AttrType.string
        | some p => p.2
      match listValue elementType (converted.map Prod.fst) with
      | .error e => .error e
      | .ok lv => .ok (lv, .list elementType)
  | .map entries =>
    match decodeMapEntries entries with
    | .error e => .error e
    | .ok converted =>
      let attributeTypes := converted.map (fun p => (p.1, p.2.2))
      let attributes := converted.map (fun p => (p.1, p.2.1))
      match objectValue attributeTypes attributes with
      | .error e => .error e
      | .ok ov => .ok (ov, .object attributeTypes)

/-- The element loop of `anyToAttrValue`'s slice case, carrying the index
used in error messages.  The source assigns `elementType` on the first
iteration only (it is never nil afterwards), which is the head of the
converted list. -/
def decodeSliceElems (i : Nat) :
    List Any → Except ConvErr (List (AttrValue × AttrType))
  | [] => .ok []
  | elem :: rest =>
    match anyToAttrValue elem with
    | .error e => .error (.sliceElem i e)
    | .ok p =>
      match decodeSliceElems (i + 1) rest with
      | .error e => .error e
      | .ok ps => .ok (p :: ps)

/-- The entry loop of `anyToAttrValue`'s map case. -/
def decodeMapEntries :
    List (String × Any) → Except ConvErr (List (String × (AttrValue × AttrType)))
  | [] => .ok []
  | (key, value) :: rest =>
    match anyToAttrValue value with
    | .error e => .error (.mapValue key e)
    | .ok p =>
      match decodeMapEntries rest with
      | .error e => .error e
      | .ok ps => .ok ((key, p) :: ps)

end

/-- `AnyToDynamic` (src/unnamed/part_006, lines 250-263): a nil or empty map
becomes a null Dynamic with no error; otherwise the map is decoded through
`anyToAttrValue` and wrapped in a known Dynamic. -/
def AnyToDynamic (input : List (String × Any)) : Except ConvErr AttrValue :=
  if input.isEmpty then .ok (.dynamic .null)
  else
    match anyToAttrValue (.map input) with
    | .error e => .error (.dynFromMap e)
    | .ok (attrValue, _) => .ok (.dynamic (.known attrValue))

/-! ### The fragment of typed values that survives an encode-decode round trip

`roundTrippable` carves out the values whose shape the decoder can rebuild
exactly: known String/Bool/Int64/Float64 scalars, known Lists whose declared
element type agrees with every element (and is String when the list is
empty, matching the decoder's empty-slice default), and known Objects whose
declared attribute types are exactly the attributes' own types.  Nulls and
unknowns, Sets, Maps, Tuples, Numbers and nested Dynamics are excluded: the
decoder maps nil to a null String, rebuilds sequences as Lists and mappings
as Objects, has no Number or Tuple output, and rejects non-object dynamics.
-/

mutual

/-- Typed values that encode and then decode back to themselves. -/
def roundTrippable : AttrValue → Bool
  | .str (.known _) => true
  | .bool (.known _) => true
  | .int64 (.known _) => true
  | .float64 (.known _) => true
  | .list t (.known es) =>
    rtElems es &&
      (match es with
       | [] => t == AttrType.string
       | _ :: _ => es.all fun e => e.typeOf == t)
  | .object ts (.known attrs) =>
    rtAttrs attrs && (attrs.map (fun p => (p.1, p.2.typeOf)) == ts)
  | _ => false

/-- `roundTrippable` on every element of a list. -/
def rtElems : List AttrValue → Bool
  | [] => true
  | e :: es => roundTrippable e && rtElems es

/-- `roundTrippable` on every attribute of an object. -/
def rtAttrs : List (String × AttrValue) → Bool
  | [] => true
  | (_, x) :: attrs => roundTrippable x && rtAttrs attrs

end

/-- Projecting the values back out of decoded slice elements. -/
theorem map_pair_fst (es : List AttrValue) :
    (es.map fun e => ((e, e.typeOf) : AttrValue × AttrType)).map Prod.fst = es := by
  induction es with
  | nil => rfl
  | cons e l ih => simp [ih]

/-- Projecting the inferred attribute types out of decoded map entries. -/
theorem map_entry_types (attrs : List (String × AttrValue)) :
    (attrs.map fun p =>
        ((p.1, (p.2, p.2.typeOf)) : String × (AttrValue × AttrType))).map
      (fun p => (p.1, p.2.2)) = attrs.map fun p => (p.1, p.2.typeOf) := by
  induction attrs with
  | nil => rfl
  | cons a l ih => simp [ih]

/-- Projecting the attribute values out of decoded map entries. -/
theorem map_entry_vals (attrs : List (String × AttrValue)) :
    (attrs.map fun p =>
        ((p.1, (p.2, p.2.typeOf)) : String × (AttrValue × AttrType))).map
      (fun p => (p.1, p.2.1)) = attrs := by
  induction attrs with
  | nil => rfl
  | cons a l ih => simp [ih]

mutual

/-- Encoding a round-trippable value succeeds, and decoding the result
restores the value together with its own type. -/
theorem rt_encode_decode :
    ∀ v : AttrValue, roundTrippable v = true →
      ∃ a : Any, tfValueToAny v = .ok a ∧ anyToAttrValue a = .ok (v, v.typeOf)
  | .str (.known s), _ => ⟨.str s, rfl, rfl⟩
  | .bool (.known b), _ => ⟨.bool b, rfl, rfl⟩
  | .int64 (.known n), _ => ⟨.int64 n, rfl, rfl⟩
  | .float64 (.known x), _ => ⟨.float64 x, rfl, rfl⟩
  | .list t (.known es), h => by
      simp only [roundTrippable, Bool.and_eq_true] at h
      obtain ⟨h1, h2⟩ := h
      obtain ⟨as, henc, hdec, hlen⟩ := rt_encode_decode_elems es h1 0 0
      refine ⟨.slice as, ?_, ?_⟩
      · simp [tfValueToAny, AttrValue.isNull, AttrValue.isUnknown,
          tfListToSliceAny, Except.map, henc]
      · cases es with
        | nil =>
          have : as = [] := List.length_eq_zero.mp hlen
          subst this
          simp only [beq_iff_eq] at h2
          subst h2
          rfl
        | cons e es' =>
          simp only [List.all_cons, Bool.and_eq_true, beq_iff_eq] at h2
          simp only [anyToAttrValue, hdec, map_pair_fst]
          rw [show (((e :: es').map fun x =>
              ((x, x.typeOf) : AttrValue × AttrType)).head?) =
              some (e, e.typeOf) from rfl]
          simp only [listValue, map_pair_fst]
          rw [h2.1]
          have hall : (e :: es').all (fun x => x.typeOf == t) = true := by
            simp [List.all_cons, h2.1, h2.2]
          rw [if_pos hall]
          rfl
  | .str .null, h => nomatch h
  | .str .unknown, h => nomatch h
  | .bool .null, h => nomatch h
  | .bool .unknown, h => nomatch h
  | .int64 .null, h => nomatch h
  | .int64 .unknown, h => nomatch h
  | .float64 .null, h => nomatch h
  | .float64 .unknown, h => nomatch h
  | .number _, h => nomatch h
  | .list _ .null, h => nomatch h
  | .list _ .unknown, h => nomatch h
  | .set _ _, h => nomatch h
  | .map _ _, h => nomatch h
  | .object _ .null, h => nomatch h
  | .object _ .unknown, h => nomatch h
  | .tuple _ _, h => nomatch h
  | .dynamic _, h => nomatch h
  | .object ts (.known attrs), h => by
      simp only [roundTrippable, Bool.and_eq_true, beq_iff_eq] at h
      obtain ⟨h1, h2⟩ := h
      obtain ⟨gs, henc, hdec, hkeys⟩ := rt_encode_decode_attrs attrs h1
      refine ⟨.map gs, ?_, ?_⟩
      · simp [tfValueToAny, AttrValue.isNull, AttrValue.isUnknown,
          tfObjectToMapAny, Except.map, henc]
      · simp only [anyToAttrValue, hdec]
        rw [map_entry_types, map_entry_vals, h2]
        unfold objectValue
        rw [if_pos h2]
        rfl

theorem rt_encode_decode_elems :
    ∀ es : List AttrValue, rtElems es = true → ∀ i j : Nat,
      ∃ as : List Any, encodeListElems i es = .ok as ∧
        decodeSliceElems j as =
          .ok (es.map fun e => ((e, e.typeOf) : AttrValue × AttrType)) ∧
        as.length = es.length
  | [], _, _, _ => ⟨[], rfl, rfl, rfl⟩
  | e :: es, h, i, j => by
      simp only [rtElems, Bool.and_eq_true] at h
      obtain ⟨a, ha, had⟩ := rt_encode_decode e h.1
      obtain ⟨as, henc, hdec, hlen⟩ := rt_encode_decode_elems es h.2 (i + 1) (j + 1)
      refine ⟨a :: as, ?_, ?_, by simp [hlen]⟩
      · simp [encodeListElems, ha, henc]
      · simp [decodeSliceElems, had, hdec]

theorem rt_encode_decode_attrs :
    ∀ attrs : List (String × AttrValue), rtAttrs attrs = true →
      ∃ gs : List (String × Any), encodeObjectAttrs attrs = .ok gs ∧
        decodeMapEntries gs =
          .ok (attrs.map fun p =>
            ((p.1, (p.2, p.2.typeOf)) : String × (AttrValue × AttrType))) ∧
        gs.map Prod.fst = attrs.map Prod.fst
  | [], _ => ⟨[], rfl, rfl, rfl⟩
  | (k, x) :: attrs, h => by
      simp only [rtAttrs, Bool.and_eq_true] at h
      obtain ⟨a, ha, had⟩ := rt_encode_decode x h.1
      obtain ⟨gs, henc, hdec, hkeys⟩ := rt_encode_decode_attrs attrs h.2
      refine ⟨(k, a) :: gs, ?_, ?_, by simp [hkeys]⟩
      · simp [encodeObjectAttrs, ha, henc]
      · simp [decodeMapEntries, had, hdec]

end

/-- A successful `listValue` returns the known list of the declared
element type. -/
theorem listValue_ok_shape (et : AttrType) (lst : List AttrValue)
    (lv : AttrValue) (h : listValue et lst = .ok lv) :
    lv = .list et (.known lst) := by
  unfold listValue at h
  split at h
  · simpa using h.symm
  · simp at h

/-- A successful `objectValue` returns the known object of the declared
attribute types. -/
theorem objectValue_ok_shape (ats : List (String × AttrType))
    (as : List (String × AttrValue)) (ov : AttrValue)
    (h : objectValue ats as = .ok ov) : ov = .object ats (.known as) := by
  unfold objectValue at h
  split at h
  · simpa using h.symm
  · simp at h

/-- The decoder always returns a value paired with that value's own type. -/
theorem anyToAttrValue_typeOf :
    ∀ (a : Any) (v : AttrValue) (t : AttrType),
      anyToAttrValue a = .ok (v, t) → v.typeOf = t := by
  intro a v t h
  cases a <;> simp only [anyToAttrValue] at h
  case nil =>
    obtain ⟨rfl, rfl⟩ := by simpa using h.symm
    rfl
  case str s =>
    obtain ⟨rfl, rfl⟩ := by simpa using h.symm
    rfl
  case bool b =>
    obtain ⟨rfl, rfl⟩ := by simpa using h.symm
    rfl
  case int64 n =>
    obtain ⟨rfl, rfl⟩ := by simpa using h.symm
    rfl
  case float64 x =>
    obtain ⟨rfl, rfl⟩ := by simpa using h.symm
    rfl
  case slice elems =>
    split at h
    · simp at h
    · split at h
      · simp at h
      · rename_i lv hlv
        obtain ⟨rfl, rfl⟩ := by simpa using h.symm
        rw [listValue_ok_shape _ _ _ hlv]
        rfl
  case map entries =>
    split at h
    · simp at h
    · split at h
      · simp at h
      · rename_i ov hov
        obtain ⟨rfl, rfl⟩ := by simpa using h.symm
        rw [objectValue_ok_shape _ _ _ hov]
        rfl

/-- Every pair produced by the map-entry decode loop carries the type of its
own decoded value. -/
theorem decodeMapEntries_types :
    ∀ (m : List (String × Any)) (pairs : List (String × (AttrValue × AttrType))),
      decodeMapEntries m = .ok pairs → ∀ p ∈ pairs, p.2.1.typeOf = p.2.2 := by
  intro m
  induction m with
  | nil =>
    intro pairs h p hp
    simp only [decodeMapEntries] at h
    obtain rfl := by simpa using h.symm
    simp at hp
  | cons kv rest ih =>
    obtain ⟨key, value⟩ := kv
    intro pairs h p hp
    simp only [decodeMapEntries] at h
    split at h
    · simp at h
    · rename_i q hq
      split at h
      · simp at h
      · rename_i ps hps
        obtain rfl := by simpa using h.symm
        rcases List.mem_cons.mp hp with rfl | hmem
        · exact anyToAttrValue_typeOf value q.1 q.2 (by simpa using hq)
        · exact ih ps hps p hmem

/-! ### Claims -/

/-- Claim C1, counterexample: the round-trip law fails as stated.  The typed
value Dynamic(Object{}) contains no Unknown, yet decoding its encoding
yields a null Dynamic, which is not structurally equal to the original. -/
theorem roundtrip_empty_object_counterexample :
    (TfDynamicToMapAny (.known (.object [] (.known [])))).bind AnyToDynamic
      = .ok (.dynamic .null)
    ∧ AttrValue.dynamic .null ≠ .dynamic (.known (.object [] (.known []))) :=
  ⟨rfl, by
    intro h
    injection h with h'
    exact ValState.noConfusion h'⟩

/-- Claim C1, amended: the round-trip law holds on the `roundTrippable`
fragment — a top-level Dynamic wrapping a non-empty known Object whose tree
consists of known String/Bool/Int64/Float64 scalars, known Lists agreeing
with their declared element type (String when empty), and known Objects
whose declared attribute types are the attributes' own types.  For such a
value, decoding the encoding restores it exactly: same keys in order, same
list lengths and element order, same scalar values. -/
theorem encode_decode_roundtrip_object_dynamic
    (ts : List (String × AttrType)) (attrs : List (String × AttrValue))
    (hne : attrs ≠ [])
    (hrt : roundTrippable (.object ts (.known attrs)) = true) :
    (TfDynamicToMapAny (.known (.object ts (.known attrs)))).bind AnyToDynamic
      = .ok (.dynamic (.known (.object ts (.known attrs)))) := by
  simp only [roundTrippable, Bool.and_eq_true, beq_iff_eq] at hrt
  obtain ⟨h1, h2⟩ := hrt
  obtain ⟨gs, henc, hdec, hkeys⟩ := rt_encode_decode_attrs attrs h1
  have hENC : TfDynamicToMapAny (.known (.object ts (.known attrs))) = .ok gs := by
    simp [TfDynamicToMapAny, tfDynamicToMapAny, tfObjectToMapAny, henc]
  rw [hENC]
  have hgs : gs.isEmpty = false := by
    cases gs with
    | nil =>
      cases attrs with
      | nil => exact absurd rfl hne
      | cons a l => simp at hkeys
    | cons g l => rfl
  have hDEC : anyToAttrValue (.map gs)
      = .ok (.object ts (.known attrs), .object ts) := by
    simp only [anyToAttrValue, hdec]
    rw [map_entry_types, map_entry_vals, h2]
    unfold objectValue
    rw [if_pos h2]
  show AnyToDynamic gs = _
  simp [AnyToDynamic, hgs, hDEC]

/-- Witness for the amended claim C1 at the typed value
Dynamic(Object{a: String "x"}). -/
theorem encode_decode_roundtrip_object_dynamic_witness :
    (TfDynamicToMapAny (.known (.object [("a", .string)]
        (.known [("a", .str (.known "x"))])))).bind AnyToDynamic
      = .ok (.dynamic (.known (.object [("a", .string)]
          (.known [("a", .str (.known "x"))])))) :=
  encode_decode_roundtrip_object_dynamic [("a", .string)]
    [("a", .str (.known "x"))] (List.cons_ne_nil _ _) rfl

/-- Claim C2, counterexample: the exported encoder entry point returns a nil
map with no error for a top-level unknown Dynamic, instead of an
`UnresolvedValueError`. -/
theorem topLevel_unknown_dynamic_no_error :
    TfDynamicToMapAny ValState.unknown = .ok [] := rfl

/-- Claim C2, amended: every framework value that is itself in the Unknown
state is rejected by the per-value encoder `tfValueToAny` with the
unresolved-value error; the top-level entry `TfDynamicToMapAny`, however,
silently returns a nil map for an unknown Dynamic. -/
theorem tfValueToAny_unknown_rejected (v : AttrValue)
    (h : v.isUnknown = true) : tfValueToAny v = .error .unresolvedValue := by
  cases v <;> rename_i st <;> cases st <;>
    first
      | rfl
      | simp_all [AttrValue.isUnknown]

/-- Witness for the amended claim C2 at an unknown String value. -/
theorem tfValueToAny_unknown_rejected_witness :
    tfValueToAny (.str .unknown) = .error .unresolvedValue :=
  tfValueToAny_unknown_rejected (.str .unknown) rfl

/-- Claim C3: decoding the homogeneous sequence [1, 2, 3] yields a
List of Int64 of length 3 as the spec says, but decoding the heterogeneous
sequence ["a", 1, true] does not yield a Tuple — the decoder picks the first
element's type as the list element type and `types.ListValue` rejects the
mismatched elements, so the call errors, contradicting the spec and the
repository's own test (`TestAnyToDynamic`, case "mixed_slice"). -/
theorem anyToAttrValue_sequence_inference_status :
    anyToAttrValue (.slice [.int64 1, .int64 2, .int64 3])
      = .ok (.list .int64 (.known
            [.int64 (.known 1), .int64 (.known 2), .int64 (.known 3)]),
          .list .int64)
    ∧ anyToAttrValue (.slice [.str "a", .int64 1, .bool true])
      = .error .invalidListElems :=
  ⟨rfl, rfl⟩

/-- Claim C4, counterexample: decoding the homogeneous mapping
{"a": "x", "b": "y"} yields an Object with fields {a: String, b: String},
not a Map of String as the claim states. -/
theorem homogeneous_map_decodes_to_object :
    anyToAttrValue (.map [("a", .str "x"), ("b", .str "y")])
      = .ok (.object [("a", .string), ("b", .string)]
            (.known [("a", .str (.known "x")), ("b", .str (.known "y"))]),
          .object [("a", .string), ("b", .string)])
    ∧ AttrType.object [("a", .string), ("b", .string)] ≠ AttrType.map .string :=
  ⟨rfl, by decide⟩

/-- Claim C4, amended: a generic string-keyed mapping whose values all
decode successfully always decodes to an Object whose per-field types are
the individually inferred types — never to a Map, even when all inferred
value types coincide. -/
theorem anyToAttrValue_map_always_object
    (m : List (String × Any)) (pairs : List (String × (AttrValue × AttrType)))
    (h : decodeMapEntries m = .ok pairs) :
    anyToAttrValue (.map m)
      = .ok (.object (pairs.map fun p => (p.1, p.2.2))
            (.known (pairs.map fun p => (p.1, p.2.1))),
          .object (pairs.map fun p => (p.1, p.2.2))) := by
  have htypes := decodeMapEntries_types m pairs h
  have hcheck : (pairs.map fun p => ((p.1, p.2.1) : String × AttrValue)).map
      (fun p => (p.1, p.2.typeOf)) = pairs.map fun p => (p.1, p.2.2) := by
    rw [List.map_map]
    refine List.map_congr_left ?_
    intro p hp
    simp [Function.comp, htypes p hp]
  simp only [anyToAttrValue, h]
  unfold objectValue
  rw [if_pos hcheck]

/-- Witness for the amended claim C4 at the mapping {"a": "x", "b": 1},
which decodes to an Object with fields {a: String, b: Int64}. -/
theorem anyToAttrValue_map_always_object_witness :
    anyToAttrValue (.map [("a", .str "x"), ("b", .int64 1)])
      = .ok (.object [("a", .string), ("b", .int64)]
            (.known [("a", .str (.known "x")), ("b", .int64 (.known 1))]),
          .object [("a", .string), ("b", .int64)]) :=
  anyToAttrValue_map_always_object [("a", .str "x"), ("b", .int64 1)]
    [("a", (.str (.known "x"), .string)), ("b", (.int64 (.known 1), .int64))] rfl

/-- Claim C5, counterexample: encoding a Dynamic wrapping a concrete String
does not equal encoding the String — the Dynamic path rejects every
underlying value that is not an object or map, while the String alone
encodes fine. -/
theorem dynamic_scalar_unwrap_fails :
    tfValueToAny (.dynamic (.known (.str (.known "x"))))
      = .error (.notObjectOrMap "basetypes.StringValue")
    ∧ tfValueToAny (.str (.known "x")) = .ok (.str "x") :=
  ⟨rfl, rfl⟩

/-- Claim C5, amended: the Dynamic unwrap homomorphism
encode(Dynamic(v)) = encode(v) holds exactly when the underlying value is a
known Object or a known Map; all other underlying kinds are rejected with a
"dynamic value is not an object or map" error. -/
theorem dynamic_unwrap_object_map :
    (∀ (ts : List (String × AttrType)) (attrs : List (String × AttrValue)),
      tfValueToAny (.dynamic (.known (.object ts (.known attrs))))
        = tfValueToAny (.object ts (.known attrs)))
    ∧ ∀ (t : AttrType) (elems : List (String × AttrValue)),
      tfValueToAny (.dynamic (.known (.map t (.known elems))))
        = tfValueToAny (.map t (.known elems)) := by
  constructor
  · intro ts attrs
    simp [tfValueToAny, tfDynamicToMapAny, tfObjectToMapAny,
      AttrValue.isNull, AttrValue.isUnknown]
  · intro t elems
    simp [tfValueToAny, tfDynamicToMapAny, tfMapToMapAny,
      AttrValue.isNull, AttrValue.isUnknown]

/-- Claim C6: a non-null, non-unknown Tuple is rejected by the encoder's
default case as an unsupported terraform type, although the repository's own
test (`TestTfValueToAny`, case "tuple with mixed types") expects it to
encode to the generic sequence ["test", 42, true]. -/
theorem tfValueToAny_tuple_unsupported :
    tfValueToAny (.tuple [.string, .int64, .bool]
        (.known [.str (.known "test"), .int64 (.known 42), .bool (.known true)]))
      = .error (.unsupportedTfType "basetypes.TupleValue") := rfl

/-- Claim C7, counterexample: decoding generic nil always yields the
String-typed null — there is no hint parameter, so the result is not tagged
with any caller-declared type (for instance it is not the Int64 null). -/
theorem decode_nil_always_string_null :
    anyToAttrValue .nil = .ok (.str .null, .string)
    ∧ AttrValue.str .null ≠ .int64 .null :=
  ⟨rfl, by intro h; exact AttrValue.noConfusion h⟩

/-- Claim C7, amended: encoding a Null of any declared type yields generic
nil with no error; decoding generic nil always yields the String-typed null
(the decoder takes no hint). -/
theorem null_encode_nil_decode_string (v : AttrValue)
    (h : v.isNull = true) :
    tfValueToAny v = .ok .nil
    ∧ anyToAttrValue .nil = .ok (.str .null, .string) := by
  refine ⟨?_, rfl⟩
  cases v <;> rename_i st <;> cases st <;>
    first
      | rfl
      | simp_all [AttrValue.isNull]

/-- Witness for the amended claim C7 at a null Int64 value. -/
theorem null_encode_nil_decode_string_witness :
    tfValueToAny (.int64 .null) = .ok .nil
    ∧ anyToAttrValue .nil = .ok (.str .null, .string) :=
  null_encode_nil_decode_string (.int64 .null) rfl

/-- Claim C8: encoding a known BigNumber returns, with no error, the generic
float64 obtained by the best-effort truncation of the big number to double
precision, silently discarding the accuracy report. -/
theorem number_encodes_truncated_float64 (q : Rat) :
    tfValueToAny (.number (.known q))
      = .ok (.float64 (bigFloatFloat64 q).1) := by
  simp [tfValueToAny, AttrValue.isNull, AttrValue.isUnknown]

/-- Claim C9: `AnyToDynamic` collapses a nil or empty mapping to a null
Dynamic with no error, and consequently an empty typed Object does not
survive an encode-decode round trip: it encodes to the empty mapping, which
decodes to the null Dynamic. -/
theorem anyToDynamic_empty_collapses_null :
    AnyToDynamic [] = .ok (.dynamic .null)
    ∧ TfDynamicToMapAny (.known (.object [] (.known []))) = .ok []
    ∧ (TfDynamicToMapAny (.known (.object [] (.known [])))).bind AnyToDynamic
        = .ok (.dynamic .null) :=
  ⟨rfl, rfl, rfl⟩

/-- Claim C10: decoding an empty generic sequence yields, with no error, an
empty typed List whose element type is the hard-coded String default. -/
theorem empty_slice_decodes_string_list :
    anyToAttrValue (.slice []) = .ok (.list .string (.known []), .list .string) :=
  rfl

end TfConv
